import Mathlib

/-!
Verification of the `fstdout-logger` crate against its specification.

The development shallowly embeds the crate's code: `src/config/mod.rs`
(`LoggerConfig` and its builder), `src/formatter/mod.rs` (`LogFormatter`
with its two rendering paths), and `src/lib.rs` (`FStdoutLogger`, global
registration, the `Log` trait implementation and the initialization
helpers).  External collaborators are modelled explicitly:

* the `log` crate's `Level` / `LevelFilter` enums with their numeric
  ordering (`Error = 1 < … < Trace = 5`), the global logger slot and the
  global `max_level` atomic;
* the `colored` crate's `ColoredString` (foreground color + bold style)
  and its ANSI rendering;
* `chrono`'s wall-clock formatting, as a pure function of an explicit
  `DateTime` value (`%Y-%m-%d %H:%M:%S` and `%H:%M:%S` with zero padding);
* the file system and the process I/O state, as explicit state records
  threaded through the operations (fallible opens, swallowed write
  failures);
* the mutex around the file handle, as a small labelled transition system
  in which only the lock holder may append bytes to the file.
-/

/-! ### Decimal rendering of natural numbers (model of Rust's `Display for u32`) -/

/-- Character for a decimal digit `d < 10`. -/
def digitChar (d : Nat) : Char :=
  if d = 0 then '0' else if d = 1 then '1' else if d = 2 then '2'
  else if d = 3 then '3' else if d = 4 then '4' else if d = 5 then '5'
  else if d = 6 then '6' else if d = 7 then '7' else if d = 8 then '8' else '9'

/-- Fuel-driven accumulator loop producing the decimal digits of `n`. -/
def natReprAux : Nat → Nat → List Char → List Char
  | 0, _, acc => acc
  | fuel + 1, n, acc =>
      if n = 0 then acc else natReprAux fuel (n / 10) (digitChar (n % 10) :: acc)

/-- Decimal rendering of a natural number, as Rust's `Display` prints it. -/
def natRepr (n : Nat) : String :=
  if n = 0 then "0" else String.mk (natReprAux n n [])

/-! ### Character scanning helpers -/

/-- Whether character `c` occurs in the list. -/
def hasCh (c : Char) : List Char → Bool
  | [] => false
  | a :: as => (a == c) || hasCh c as

/-- Number of occurrences of character `c` in the list. -/
def countCh (c : Char) : List Char → Nat
  | [] => 0
  | a :: as => (if a = c then 1 else 0) + countCh c as

/-- Whether the string contains the ANSI escape byte `0x1b`. -/
def hasEsc (s : String) : Bool := hasCh '\x1b' s.data

/-! ### Wall-clock instants and `chrono` format strings -/

/-- A wall-clock instant, standing for `chrono::Local::now()`. -/
structure DateTime where
  year : Nat
  month : Nat
  day : Nat
  hour : Nat
  minute : Nat
  second : Nat
deriving DecidableEq

/-- Zero padding to two digits, as `chrono`'s `%H`/`%M`/`%S`/`%m`/`%d`. -/
def pad2 (n : Nat) : String := (if n < 10 then "0" else "") ++ natRepr n

/-- Zero padding to four digits, as `chrono`'s `%Y`. -/
def pad4 (n : Nat) : String :=
  (if n < 10 then "000" else if n < 100 then "00" else if n < 1000 then "0" else "")
    ++ natRepr n

/-- Rendering of `now.format("%H:%M:%S")`. -/
def fmtTime (t : DateTime) : String :=
  pad2 t.hour ++ ":" ++ pad2 t.minute ++ ":" ++ pad2 t.second

/-- Rendering of `now.format("%Y-%m-%d %H:%M:%S")`. -/
def fmtFull (t : DateTime) : String :=
  pad4 t.year ++ "-" ++ pad2 t.month ++ "-" ++ pad2 t.day ++ " " ++ fmtTime t

/-! ### The `log` crate: levels, filters, records -/

/-- Model of `log::Level`: `Error` is numerically smallest, `Trace` largest. -/
inductive Level where
  | Error
  | Warn
  | Info
  | Debug
  | Trace
deriving DecidableEq

/-- Numeric value of a `log::Level` (its `usize` discriminant). -/
def Level.toNat : Level → Nat
  | .Error => 1
  | .Warn => 2
  | .Info => 3
  | .Debug => 4
  | .Trace => 5

/-- Model of `log::Level::as_str`, also its `Display` rendering. -/
def Level.as_str : Level → String
  | .Error => "ERROR"
  | .Warn => "WARN"
  | .Info => "INFO"
  | .Debug => "DEBUG"
  | .Trace => "TRACE"

/-- Severity rank in the spec's order `Trace < Debug < Info < Warn < Error`. -/
def Level.severity (l : Level) : Nat := 5 - l.toNat

/-- Model of `log::LevelFilter`. -/
inductive LevelFilter where
  | Off
  | Error
  | Warn
  | Info
  | Debug
  | Trace
deriving DecidableEq

/-- Numeric value of a `log::LevelFilter` (its `usize` discriminant). -/
def LevelFilter.toNat : LevelFilter → Nat
  | .Off => 0
  | .Error => 1
  | .Warn => 2
  | .Info => 3
  | .Debug => 4
  | .Trace => 5

/-- The `LevelFilter` that admits exactly level `l` and the more severe ones. -/
def Level.toFilter : Level → LevelFilter
  | .Error => .Error
  | .Warn => .Warn
  | .Info => .Info
  | .Debug => .Debug
  | .Trace => .Trace

/-- A `log::Record`: level, rendered message, optional source location. -/
structure Record where
  level : Level
  args : String
  file : Option String := none
  line : Option Nat := none
deriving DecidableEq

/-! ### `src/config/mod.rs`: `LoggerConfig` and its builder -/

/-- Configuration for the logger (`LoggerConfig` in `src/config/mod.rs`). -/
structure LoggerConfig where
  show_file_info : Bool
  show_date_in_stdout : Bool
  use_colors : Bool
  level : LevelFilter
deriving DecidableEq

/-- Model of `impl Default for LoggerConfig`. -/
def LoggerConfig.default : LoggerConfig :=
  { show_file_info := true
    show_date_in_stdout := false
    use_colors := true
    level := .Info }

/-- Model of `LoggerConfig::new`. -/
def LoggerConfig.new : LoggerConfig := LoggerConfig.default

/-- Model of `LoggerConfig::production`. -/
def LoggerConfig.production : LoggerConfig :=
  { show_file_info := false
    show_date_in_stdout := false
    use_colors := true
    level := .Info }

/-- Model of `LoggerConfig::development`. -/
def LoggerConfig.development : LoggerConfig :=
  { show_file_info := true
    show_date_in_stdout := false
    use_colors := true
    level := .Debug }

/-- Model of `LoggerConfigBuilder`. -/
structure LoggerConfigBuilder where
  config : LoggerConfig
deriving DecidableEq

/-- Model of `impl Default for LoggerConfigBuilder` (derived in the source). -/
def LoggerConfigBuilder.default : LoggerConfigBuilder := ⟨LoggerConfig.default⟩

/-- Model of `LoggerConfigBuilder::show_file_info`. -/
def LoggerConfigBuilder.show_file_info (b : LoggerConfigBuilder) (s : Bool) : LoggerConfigBuilder :=
  ⟨{ b.config with show_file_info := s }⟩

/-- Model of `LoggerConfigBuilder::show_date_in_stdout`. -/
def LoggerConfigBuilder.show_date_in_stdout (b : LoggerConfigBuilder) (s : Bool) :
    LoggerConfigBuilder :=
  ⟨{ b.config with show_date_in_stdout := s }⟩

/-- Model of `LoggerConfigBuilder::use_colors`. -/
def LoggerConfigBuilder.use_colors (b : LoggerConfigBuilder) (u : Bool) : LoggerConfigBuilder :=
  ⟨{ b.config with use_colors := u }⟩

/-- Model of `LoggerConfigBuilder::level`. -/
def LoggerConfigBuilder.level (b : LoggerConfigBuilder) (l : LevelFilter) : LoggerConfigBuilder :=
  ⟨{ b.config with level := l }⟩

/-- Model of `LoggerConfigBuilder::build`. -/
def LoggerConfigBuilder.build (b : LoggerConfigBuilder) : LoggerConfig := b.config

/-- Model of `LoggerConfig::builder`. -/
def LoggerConfig.builder : LoggerConfigBuilder := LoggerConfigBuilder.default

/-! ### The `colored` crate -/

/-- Foreground colors used by the formatter. -/
inductive Color where
  | red
  | yellow
  | blue
  | green
  | brightBlack
deriving DecidableEq

/-- ANSI SGR foreground code of a color, as the `colored` crate emits it. -/
def Color.fgCode : Color → String
  | .red => "31"
  | .yellow => "33"
  | .blue => "34"
  | .green => "32"
  | .brightBlack => "90"

/-- Model of `colored::ColoredString`: an input string with optional foreground
color and a bold style flag (the only style the logger uses). -/
structure ColoredString where
  input : String
  fgcolor : Option Color := none
  styleBold : Bool := false
deriving DecidableEq

/-- Model of `Colorize::normal`. -/
def String.normal (s : String) : ColoredString := { input := s }

/-- Model of `Colorize::red`. -/
def String.red (s : String) : ColoredString := { input := s, fgcolor := some .red }

/-- Model of `Colorize::yellow`. -/
def String.yellow (s : String) : ColoredString := { input := s, fgcolor := some .yellow }

/-- Model of `Colorize::blue`. -/
def String.blue (s : String) : ColoredString := { input := s, fgcolor := some .blue }

/-- Model of `Colorize::green`. -/
def String.green (s : String) : ColoredString := { input := s, fgcolor := some .green }

/-- Model of `Colorize::bright_black`. -/
def String.bright_black (s : String) : ColoredString :=
  { input := s, fgcolor := some .brightBlack }

/-- Model of `ColoredString::bold` (the `Colorize::bold` style adder). -/
def ColoredString.bold (c : ColoredString) : ColoredString := { c with styleBold := true }

/-- Whether no color and no style is set (`ColoredString::is_plain`). -/
def ColoredString.is_plain (c : ColoredString) : Bool := c.fgcolor.isNone && !c.styleBold

/-- SGR parameter list: styles first, then the foreground code. -/
def ColoredString.codeString (c : ColoredString) : String :=
  match c.styleBold, c.fgcolor with
  | true, some col => "1;" ++ col.fgCode
  | true, none => "1"
  | false, some col => col.fgCode
  | false, none => ""

/-- Model of `Display for ColoredString`: plain strings print verbatim, styled
strings are wrapped in `ESC[…m … ESC[0m`. -/
def ColoredString.render (c : ColoredString) : String :=
  if c.is_plain then c.input
  else "\x1b[" ++ c.codeString ++ "m" ++ c.input ++ "\x1b[0m"

/-! ### `src/formatter/mod.rs`: `LogFormatter` -/

/-- Handles log formatting for both stdout and file outputs. -/
structure LogFormatter where
  config : LoggerConfig
deriving DecidableEq

/-- Model of `LogFormatter::new`. -/
def LogFormatter.new (config : LoggerConfig) : LogFormatter := ⟨config⟩

/-- Model of `LogFormatter::get_level_color`. -/
def LogFormatter.get_level_color (f : LogFormatter) (level : Level) : ColoredString :=
  if f.config.use_colors = false then (Level.as_str level).normal
  else
    match level with
    | .Error => "ERROR".red.bold
    | .Warn => "WARN".yellow.bold
    | .Info => "INFO".blue.bold
    | .Debug => "DEBUG".green
    | .Trace => "TRACE".normal

/-- Model of `LogFormatter::format_stdout`, with `chrono::Local::now()` passed in
as the explicit instant `now`. -/
def LogFormatter.format_stdout (f : LogFormatter) (now : DateTime) (record : Record) : String :=
  let timestamp := if f.config.show_date_in_stdout then fmtFull now else fmtTime now
  let level_str := f.get_level_color record.level
  if f.config.show_file_info then
    let file := record.file.getD "unknown"
    let line := record.line.getD 0
    if f.config.use_colors then
      let file_info := (file ++ ":" ++ natRepr line).bright_black
      "[" ++ timestamp.bright_black.render ++ " " ++ level_str.render ++ " "
        ++ file_info.render ++ "] " ++ record.args
    else
      "[" ++ timestamp ++ " " ++ level_str.render ++ " " ++ file ++ ":" ++ natRepr line
        ++ "] " ++ record.args
  else
    if f.config.use_colors then
      "[" ++ timestamp.bright_black.render ++ " " ++ level_str.render ++ "] " ++ record.args
    else
      "[" ++ timestamp ++ " " ++ level_str.render ++ "] " ++ record.args

/-- Model of `LogFormatter::format_file`, with the instant passed in explicitly. -/
def LogFormatter.format_file (f : LogFormatter) (now : DateTime) (record : Record) : String :=
  let timestamp := fmtFull now
  let file := record.file.getD "unknown"
  let line := record.line.getD 0
  "[" ++ timestamp ++ " " ++ record.level.as_str ++ " " ++ file ++ ":" ++ natRepr line
    ++ "] " ++ record.args ++ "\n"

/-! ### Spec-side rendering shape (for the refinement claims) -/

/-- Dim/gray styling applied when colors are on, identity otherwise. -/
def dimIf (b : Bool) (s : String) : String :=
  if b then s.bright_black.render else s

/-- Terminal rendering shape as the specification words it: a bracketed
header with timestamp (`HH:MM:SS`, full date only when
`show_date_in_stdout`), the level label, and — only when
`show_file_info` — a `file:line` token with `"unknown"`/`0` sentinels,
followed by the message; timestamp and file info dimmed when colors are
on.  This definition follows the spec text, to be compared with
`LogFormatter.format_stdout`. -/
def renderForTerminalSpec (cfg : LoggerConfig) (now : DateTime) (r : Record) : String :=
  let ts := dimIf cfg.use_colors (if cfg.show_date_in_stdout then fmtFull now else fmtTime now)
  let lvl := ((LogFormatter.new cfg).get_level_color r.level).render
  if cfg.show_file_info then
    let fi := dimIf cfg.use_colors ((r.file.getD "unknown") ++ ":" ++ natRepr (r.line.getD 0))
    "[" ++ ts ++ " " ++ lvl ++ " " ++ fi ++ "] " ++ r.args
  else
    "[" ++ ts ++ " " ++ lvl ++ "] " ++ r.args

/-! ### `src/lib.rs`: errors, file system, dispatcher -/

/-- Model of `LogError`: I/O error or global-logger registration error. -/
inductive LogError where
  | IoError
  | Logger
deriving DecidableEq

/-- The file system visible to the logger: the set of existing files and
the set of paths on which `OpenOptions::open` fails. -/
structure FS where
  files : List String
  failing : List String
deriving DecidableEq

/-- The main logger (`FStdoutLogger`): `log_file` records whether the
optional mutex-protected file handle is present. -/
structure FStdoutLogger where
  log_file : Bool
  formatter : LogFormatter
deriving DecidableEq

/-- Model of `FStdoutLogger::with_config`: opens the file (create-if-absent,
append mode) when a path is given; this is the only fallible step. -/
def FStdoutLogger.with_config (fs : FS) (file_path : Option String) (config : LoggerConfig) :
    FS × Except LogError FStdoutLogger :=
  match file_path with
  | some path =>
      if path ∈ fs.failing then (fs, .error .IoError)
      else
        ({ fs with files := if path ∈ fs.files then fs.files else path :: fs.files },
         .ok { log_file := true, formatter := LogFormatter.new config })
  | none => (fs, .ok { log_file := false, formatter := LogFormatter.new config })

/-- Model of `FStdoutLogger::new`: `with_config` with the default configuration. -/
def FStdoutLogger.new (fs : FS) (file_path : Option String) :
    FS × Except LogError FStdoutLogger :=
  FStdoutLogger.with_config fs file_path LoggerConfig.default

/-- The `log` crate's process-wide state: the global logger slot and the
global `max_level` value (initially `Off`). -/
structure GlobalState where
  logger : Option FStdoutLogger
  maxLevel : LevelFilter
deriving DecidableEq

/-- Model of `log::set_logger`: install once; report failure if already set. -/
def set_logger (g : GlobalState) (l : FStdoutLogger) : GlobalState × Bool :=
  if g.logger.isSome then (g, false) else ({ g with logger := some l }, true)

/-- Model of `log::set_max_level`. -/
def set_max_level (g : GlobalState) (level : LevelFilter) : GlobalState :=
  { g with maxLevel := level }

/-- Model of `FStdoutLogger::init`: register, then set the max level to `Trace`. -/
def FStdoutLogger.init (self : FStdoutLogger) (g : GlobalState) :
    GlobalState × Except LogError Unit :=
  match set_logger g self with
  | (g', false) => (g', .error .Logger)
  | (g', true) => (set_max_level g' .Trace, .ok ())

/-- Model of `FStdoutLogger::init_with_level`: register, then set the given level. -/
def FStdoutLogger.init_with_level (self : FStdoutLogger) (level : LevelFilter) (g : GlobalState) :
    GlobalState × Except LogError Unit :=
  match set_logger g self with
  | (g', false) => (g', .error .Logger)
  | (g', true) => (set_max_level g' level, .ok ())

/-- Model of `Log::enabled for FStdoutLogger`: `metadata.level() <= log::max_level()`. -/
def FStdoutLogger.enabled (_self : FStdoutLogger) (maxLevel : LevelFilter) (level : Level) : Bool :=
  decide (level.toNat ≤ maxLevel.toNat)

/-- Observable I/O state of the process: everything printed to stdout so
far, the contents of the logger's file, and whether file writes
currently fail (disk full, file removed, …). -/
structure IOState where
  stdout : String
  file : String
  fileWriteFails : Bool
deriving DecidableEq

/-- Model of `Log::log for FStdoutLogger`: gate on `enabled`, print the terminal
rendering plus a newline, then — if a file handle exists — append the
file rendering under the lock, ignoring write errors.  The Rust method
returns `()`; here the returned `IOState` is the updated world. -/
def FStdoutLogger.logOp (self : FStdoutLogger) (g : GlobalState) (now : DateTime)
    (record : Record) (w : IOState) : IOState :=
  if self.enabled g.maxLevel record.level = false then w
  else
    let stdout_formatted := self.formatter.format_stdout now record ++ "\n"
    let w1 := { w with stdout := w.stdout ++ stdout_formatted }
    if self.log_file then
      let file_formatted := self.formatter.format_file now record
      if w1.fileWriteFails then w1
      else { w1 with file := w1.file ++ file_formatted }
    else w1

/-- Model of `Log::flush for FStdoutLogger`: best-effort flush of stdout and of
the file; contents are unchanged and errors are swallowed. -/
def FStdoutLogger.flushOp (_self : FStdoutLogger) (w : IOState) : IOState := w

/-- The facade (`log` crate macros): route an event through the
installed global logger, if any. -/
def GlobalState.handle (g : GlobalState) (now : DateTime) (r : Record) (w : IOState) : IOState :=
  match g.logger with
  | none => w
  | some l => l.logOp g now r w

/-- Model of `init_logger`: default-config logger, registered via `init`. -/
def init_logger (fs : FS) (g : GlobalState) (file_path : Option String) :
    FS × GlobalState × Except LogError Unit :=
  match FStdoutLogger.new fs file_path with
  | (fs', .error e) => (fs', g, .error e)
  | (fs', .ok l) =>
      let p := l.init g
      (fs', p.1, p.2)

/-- Model of `init_logger_with_level`: default config, explicit level. -/
def init_logger_with_level (fs : FS) (g : GlobalState) (file_path : Option String)
    (level : LevelFilter) : FS × GlobalState × Except LogError Unit :=
  match FStdoutLogger.new fs file_path with
  | (fs', .error e) => (fs', g, .error e)
  | (fs', .ok l) =>
      let p := l.init_with_level level g
      (fs', p.1, p.2)

/-- Model of `init_logger_with_config`: custom config; the global level is taken
from `config.level`. -/
def init_logger_with_config (fs : FS) (g : GlobalState) (file_path : Option String)
    (config : LoggerConfig) : FS × GlobalState × Except LogError Unit :=
  let level := config.level
  match FStdoutLogger.with_config fs file_path config with
  | (fs', .error e) => (fs', g, .error e)
  | (fs', .ok l) =>
      let p := l.init_with_level level g
      (fs', p.1, p.2)

/-! ### Concurrency model of the locked file sink

Concurrent threads calling `log` race only on the mutex-protected file
handle.  The model below is a labelled transition system at byte
granularity: a thread must first acquire the lock, may then append any
prefix chunks of its record's bytes, and releases the lock only once the
whole record is written (the `MutexGuard` is dropped after `write_all`
returns).  Terminal-output interleaving is out of scope here, matching
the spec's §9 note. -/

/-- Remove the first occurrence of a record from the pending pool. -/
def listErase : List (List Char) → List Char → List (List Char)
  | [], _ => []
  | x :: xs, r => if x = r then xs else x :: listErase xs r

/-- State of the shared file: bytes written so far, whether the lock is
held, the records not yet started, and the unwritten bytes of the record
currently being written by the lock holder. -/
structure WState where
  file : List Char
  locked : Bool
  pending : List (List Char)
  cur : List Char
deriving DecidableEq

/-- One atomic action on the shared file.  `acquire` takes the mutex and
commits a pending record; `write` appends a chunk of the held record's
bytes (only the lock holder can reach the file); `release` drops the
guard once the record is fully written. -/
inductive WStep : WState → WState → Prop where
  | acquire (s : WState) (r : List Char) :
      s.locked = false → r ∈ s.pending →
      WStep s { file := s.file, locked := true, pending := listErase s.pending r, cur := r }
  | write (s : WState) (chunk rest : List Char) :
      s.locked = true → s.cur = chunk ++ rest →
      WStep s { s with file := s.file ++ chunk, cur := rest }
  | release (s : WState) :
      s.locked = true → s.cur = [] →
      WStep s { s with locked := false }

/-- Initial state: empty file, lock free, all records pending. -/
def WInit (recs : List (List Char)) : WState :=
  { file := [], locked := false, pending := recs, cur := [] }

/-- Quiescent state: lock free and no record left to write. -/
def WTerminal (s : WState) : Prop := s.locked = false ∧ s.pending = []

/-- Invariant: the file is a concatenation of completed records plus the
already-written prefix of the in-progress record, and the completed,
in-progress and pending records together are a permutation of the
initial pool. -/
def WInv (init : List (List Char)) (s : WState) : Prop :=
  ∃ done part, s.file = done.flatten ++ part ∧
    (if s.locked then (done ++ (part ++ s.cur) :: s.pending).Perm init
     else part = [] ∧ s.cur = [] ∧ (done ++ s.pending).Perm init)

/-- Bytes of the file rendering of one event (instant, record). -/
def formatRecordBytes (f : LogFormatter) (e : DateTime × Record) : List Char :=
  (f.format_file e.1 e.2).data

/-! ### Concrete values used in closed theorems and witnesses -/

/-- A fixed instant: 2024-01-15 14:32:07. -/
def nowEx : DateTime := ⟨2024, 1, 15, 14, 32, 7⟩

/-- The default-config, stdout-only logger. -/
def defaultLoggerEx : FStdoutLogger :=
  { log_file := false, formatter := LogFormatter.new LoggerConfig.default }

/-- A default-config logger owning a file handle. -/
def fileLoggerEx : FStdoutLogger :=
  { log_file := true, formatter := LogFormatter.new LoggerConfig.default }

/-- An empty I/O state with working file writes. -/
def w0 : IOState := { stdout := "", file := "", fileWriteFails := false }

/-- An `Error`-level record with source info, from the spec's scenario. -/
def errRecEx : Record := { level := .Error, args := "boom", file := some "main", line := some 10 }

/-- File-rendering bytes of `errRecEx` at `nowEx` under the default config. -/
def c9rec : List Char :=
  (LogFormatter.format_file (LogFormatter.new LoggerConfig.default) nowEx errRecEx).data

/-- The spec's scenario configuration: Debug level, no file info, no colors. -/
def scenarioCfg : LoggerConfig :=
  { show_file_info := false, show_date_in_stdout := false, use_colors := false, level := .Debug }

/-- The spec's scenario record: an Info-level "ready" with no source info. -/
def readyRec : Record := { level := .Info, args := "ready" }

/-- A global state with an installed handler. -/
def gActive : GlobalState := { logger := some fileLoggerEx, maxLevel := .Info }

/-- An I/O state in which file writes currently fail. -/
def wFail : IOState := { stdout := "", file := "previous", fileWriteFails := true }

/-- An empty file system on which opening "bad.log" fails. -/
def fsEx : FS := { files := [], failing := ["bad.log"] }

/-! ## Helper lemmas: character scanning -/

theorem hasCh_append (c : Char) (l₁ l₂ : List Char) :
    hasCh c (l₁ ++ l₂) = (hasCh c l₁ || hasCh c l₂) := by
  induction l₁ with
  | nil => simp [hasCh]
  | cons a as ih => simp [hasCh, ih, Bool.or_assoc]

theorem hasEsc_append (s t : String) : hasEsc (s ++ t) = (hasEsc s || hasEsc t) := by
  simp [hasEsc, String.data_append, hasCh_append]

theorem countCh_append (c : Char) (l₁ l₂ : List Char) :
    countCh c (l₁ ++ l₂) = countCh c l₁ + countCh c l₂ := by
  induction l₁ with
  | nil => simp [countCh]
  | cons a as ih => simp [countCh, ih]; omega

theorem countCh_flatten (c : Char) (L : List (List Char)) :
    countCh c L.flatten = (L.map (countCh c)).sum := by
  induction L with
  | nil => rfl
  | cons a as ih => simp [List.flatten_cons, countCh_append, ih]

theorem countCh_eq_zero (c : Char) (l : List Char) (h : hasCh c l = false) :
    countCh c l = 0 := by
  induction l with
  | nil => rfl
  | cons a as ih =>
      simp only [hasCh, Bool.or_eq_false_iff] at h
      have : a ≠ c := by simpa using h.1
      simp [countCh, this, ih h.2]

theorem digitChar_isDigit (d : Nat) : (digitChar d).isDigit = true := by
  unfold digitChar
  repeat' split
  all_goals decide

theorem natReprAux_digits (fuel : Nat) :
    ∀ n acc, (∀ c ∈ acc, c.isDigit = true) → ∀ c ∈ natReprAux fuel n acc, c.isDigit = true := by
  induction fuel with
  | zero => intro n acc hacc c hc; exact hacc c hc
  | succ fuel ih =>
      intro n acc hacc c hc
      simp only [natReprAux] at hc
      split at hc
      · exact hacc c hc
      · refine ih _ _ ?_ c hc
        intro c' hc'
        rcases List.mem_cons.mp hc' with h | h
        · exact h ▸ digitChar_isDigit _
        · exact hacc c' h

theorem natRepr_digits (n : Nat) : ∀ c ∈ (natRepr n).data, c.isDigit = true := by
  unfold natRepr
  split
  · decide
  · exact natReprAux_digits n n [] (by simp)

theorem beq_false_of_digit {a c : Char} (ha : a.isDigit = true) (hc : c.isDigit = false) :
    (a == c) = false := by
  cases h : (a == c)
  · rfl
  · rw [beq_iff_eq] at h
    rw [h] at ha
    rw [ha] at hc
    exact hc

theorem hasCh_eq_false (c : Char) (l : List Char) (h : ∀ a ∈ l, a ≠ c) : hasCh c l = false := by
  induction l with
  | nil => rfl
  | cons a as ih =>
      simp only [hasCh, Bool.or_eq_false_iff]
      exact ⟨by simpa using h a (by simp), ih fun x hx => h x (by simp [hx])⟩

theorem hasCh_natRepr (c : Char) (n : Nat) (hc : c.isDigit = false) :
    hasCh c (natRepr n).data = false := by
  refine hasCh_eq_false c _ fun a ha => ?_
  intro he
  have hd := natRepr_digits n a ha
  rw [he] at hd
  rw [hd] at hc
  exact Bool.noConfusion hc

theorem hasCh_pad2 (c : Char) (n : Nat) (hc : c.isDigit = false) :
    hasCh c (pad2 n).data = false := by
  have h0 : ('0' : Char) ≠ c := fun h => by
    rw [← h] at hc
    exact Bool.noConfusion hc
  unfold pad2
  rw [String.data_append, hasCh_append, hasCh_natRepr c n hc]
  split
  · simp [hasCh, h0]
  · rfl

theorem hasCh_pad4 (c : Char) (n : Nat) (hc : c.isDigit = false) :
    hasCh c (pad4 n).data = false := by
  have h0 : ('0' : Char) ≠ c := fun h => by
    rw [← h] at hc
    exact Bool.noConfusion hc
  unfold pad4
  rw [String.data_append, hasCh_append, hasCh_natRepr c n hc]
  repeat' split
  all_goals simp [hasCh, h0]

theorem hasCh_fmtTime (c : Char) (t : DateTime) (hc : c.isDigit = false)
    (hcolon : (':' == c) = false) : hasCh c (fmtTime t).data = false := by
  unfold fmtTime
  simp [String.data_append, hasCh_append, hasCh_pad2 c _ hc, hasCh, hcolon]

theorem hasCh_fmtFull (c : Char) (t : DateTime) (hc : c.isDigit = false)
    (hcolon : (':' == c) = false) (hdash : ('-' == c) = false)
    (hspace : ((' ' : Char) == c) = false) : hasCh c (fmtFull t).data = false := by
  unfold fmtFull
  simp [String.data_append, hasCh_append, hasCh_pad2 c _ hc, hasCh_pad4 c _ hc,
    hasCh_fmtTime c t hc hcolon, hasCh, hdash, hspace]

theorem hasEsc_natRepr (n : Nat) : hasEsc (natRepr n) = false :=
  hasCh_natRepr _ n (by decide)

theorem hasEsc_fmtTime (t : DateTime) : hasEsc (fmtTime t) = false :=
  hasCh_fmtTime _ t (by decide) (by decide)

theorem hasEsc_fmtFull (t : DateTime) : hasEsc (fmtFull t) = false :=
  hasCh_fmtFull _ t (by decide) (by decide) (by decide) (by decide)

theorem hasEsc_as_str (lv : Level) : hasEsc lv.as_str = false := by
  cases lv <;> decide

theorem hasNl_fmtFull (t : DateTime) : hasCh '\n' (fmtFull t).data = false :=
  hasCh_fmtFull _ t (by decide) (by decide) (by decide) (by decide)

theorem hasNl_natRepr (n : Nat) : hasCh '\n' (natRepr n).data = false :=
  hasCh_natRepr _ n (by decide)

theorem hasNl_as_str (lv : Level) : hasCh '\n' lv.as_str.data = false := by
  cases lv <;> decide

/-! ## Helper lemmas: `colored` rendering -/

theorem render_normal (s : String) : s.normal.render = s := rfl

theorem render_bright_black (s : String) :
    s.bright_black.render = "\x1b[" ++ "90" ++ "m" ++ s ++ "\x1b[0m" := rfl

theorem hasEsc_dim (s : String) : hasEsc s.bright_black.render = true := by
  rw [render_bright_black]
  have h1 : hasEsc "\x1b[90m" = true := by decide
  simp [hasEsc_append, h1]

theorem get_level_color_plain (f : LogFormatter) (h : f.config.use_colors = false) (lv : Level) :
    (f.get_level_color lv).render = lv.as_str := by
  unfold LogFormatter.get_level_color
  rw [if_pos h]
  exact render_normal _

/-! ## Helper lemmas: last character -/

theorem data_getLast?_append (s t : String) (h : t.data ≠ []) :
    (s ++ t).data.getLast? = t.data.getLast? := by
  rw [String.data_append]
  exact List.getLast?_append_of_ne_nil _ h

theorem getLast_shape_ne_nl (A args : String) (h : args.data.getLast? ≠ some '\n') :
    ((A ++ "] ") ++ args).data.getLast? ≠ some '\n' := by
  by_cases he : args.data = []
  · rw [String.data_append, he, List.append_nil, data_getLast?_append A "] " (by decide)]
    decide
  · rw [data_getLast?_append _ args he]
    exact h

/-! ## Helper lemmas: the severity gate -/

theorem enabled_toFilter (l : FStdoutLogger) (t e : Level) :
    l.enabled t.toFilter e = decide (t.severity ≤ e.severity) := by
  cases t <;> cases e <;> rfl

/-! ## Helper lemmas: sums and lengths -/

theorem map_sum_const_one {α : Type} (f : α → Nat) (l : List α) (h : ∀ x ∈ l, f x = 1) :
    (l.map f).sum = l.length := by
  induction l with
  | nil => rfl
  | cons a as ih =>
      simp only [List.map_cons, List.sum_cons, List.length_cons, h a (by simp)]
      rw [ih fun x hx => h x (by simp [hx])]
      omega

theorem length_flatten_const {α : Type} (L : List (List α)) (M : Nat)
    (h : ∀ t ∈ L, t.length = M) : L.flatten.length = L.length * M := by
  induction L with
  | nil => simp
  | cons a as ih =>
      simp only [List.flatten_cons, List.length_append, List.length_cons, h a (by simp)]
      rw [ih fun t ht => h t (by simp [ht])]
      ring

/-! ## Helper lemmas: the locked-file transition system -/

theorem perm_cons_listErase (r : List Char) (l : List (List Char)) (h : r ∈ l) :
    l.Perm (r :: listErase l r) := by
  induction l with
  | nil => cases h
  | cons x xs ih =>
      by_cases hx : x = r
      · subst hx
        simp [listErase]
      · rcases List.mem_cons.mp h with h1 | h1
        · exact absurd h1.symm hx
        · rw [listErase, if_neg hx]
          exact ((ih h1).cons x).trans (List.Perm.swap r x _)

theorem winv_init (recs : List (List Char)) : WInv recs (WInit recs) := by
  refine ⟨[], [], by simp [WInit], ?_⟩
  simp [WInit]

theorem winv_step {init : List (List Char)} {s s' : WState} (h : WStep s s')
    (hinv : WInv init s) : WInv init s' := by
  rcases hinv with ⟨done, part, hfile, hrest⟩
  cases h with
  | acquire r hl hr =>
      rw [if_neg (by simp [hl])] at hrest
      obtain ⟨hp, _, hperm⟩ := hrest
      subst hp
      refine ⟨done, [], by simpa using hfile, ?_⟩
      rw [if_pos (by simp)]
      have he := perm_cons_listErase r s.pending hr
      simpa using (he.symm.append_left done).trans hperm
  | write chunk rest hl hcur =>
      rw [if_pos hl] at hrest
      refine ⟨done, part ++ chunk, ?_, ?_⟩
      · show s.file ++ chunk = done.flatten ++ (part ++ chunk)
        rw [hfile, List.append_assoc]
      · rw [if_pos (by simpa using hl)]
        show (done ++ ((part ++ chunk) ++ rest) :: s.pending).Perm init
        rw [List.append_assoc, ← hcur]
        exact hrest
  | release hl hcur =>
      rw [if_pos hl] at hrest
      rw [hcur, List.append_nil] at hrest
      refine ⟨done ++ [part], [], ?_, ?_⟩
      · show s.file = (done ++ [part]).flatten ++ []
        rw [hfile]
        simp [List.flatten_append]
      · rw [if_neg (by simp)]
        refine ⟨rfl, hcur, ?_⟩
        simpa using hrest

theorem winv_reach {init : List (List Char)} {s s' : WState}
    (h : Relation.ReflTransGen WStep s s') (hinv : WInv init s) : WInv init s' := by
  induction h with
  | refl => exact hinv
  | tail _ hstep ih => exact winv_step hstep ih

theorem countNl_formatRecordBytes (f : LogFormatter) (e : DateTime × Record)
    (hmsg : hasCh '\n' e.2.args.data = false)
    (hfile : hasCh '\n' (e.2.file.getD "unknown").data = false) :
    countCh '\n' (formatRecordBytes f e) = 1 := by
  unfold formatRecordBytes LogFormatter.format_file
  simp only [String.data_append, countCh_append]
  rw [countCh_eq_zero _ _ (hasNl_fmtFull e.1), countCh_eq_zero _ _ (hasNl_as_str e.2.level),
    countCh_eq_zero _ _ hmsg, countCh_eq_zero _ _ hfile,
    countCh_eq_zero _ _ (hasNl_natRepr (e.2.line.getD 0))]
  decide

/-! ## Claims -/

/-- C1: with the process-wide threshold set to `L2`, the log operation
drops an event strictly less severe than `L2` without touching the
world (no terminal output, no file output), while an event at least as
severe as `L2` appends its terminal rendering plus a newline to stdout
and, when a file sink is configured (and writes succeed), appends its
file rendering to the file; without a file sink the file is untouched. -/
theorem C1_threshold_gate (l : FStdoutLogger) (g : GlobalState) (L1 L2 L : Level)
    (now : DateTime) (r : Record) (w : IOState)
    (hset : g.maxLevel = L2.toFilter)
    (h12 : L1.severity < L2.severity) (h2 : L2.severity ≤ L.severity)
    (hio : w.fileWriteFails = false) :
    l.logOp g now { r with level := L1 } w = w ∧
    (l.logOp g now { r with level := L } w).stdout
      = w.stdout ++ (l.formatter.format_stdout now { r with level := L } ++ "\n") ∧
    (l.log_file = true →
      (l.logOp g now { r with level := L } w).file
        = w.file ++ l.formatter.format_file now { r with level := L }) ∧
    (l.log_file = false →
      (l.logOp g now { r with level := L } w).file = w.file) := by
  have e1 : l.enabled g.maxLevel L1 = false := by
    rw [hset, enabled_toFilter]
    simp only [decide_eq_false_iff_not]
    omega
  have e2 : l.enabled g.maxLevel L = true := by
    rw [hset, enabled_toFilter]
    simp only [decide_eq_true_eq]
    omega
  refine ⟨?_, ?_, ?_, ?_⟩
  · simp [FStdoutLogger.logOp, e1]
  · simp [FStdoutLogger.logOp, e2, hio]
    split <;> rfl
  · intro hf
    simp [FStdoutLogger.logOp, e2, hf, hio]
  · intro hf
    simp [FStdoutLogger.logOp, e2, hf]

/-- Witness for C1 at concrete levels `Info < Warn ≤ Error` with the
threshold `Warn` and a file-backed logger. -/
theorem C1_threshold_gate_witness :
    (⟨some fileLoggerEx, LevelFilter.Warn⟩ : GlobalState).maxLevel = Level.Warn.toFilter ∧
    Level.Info.severity < Level.Warn.severity ∧
    Level.Warn.severity ≤ Level.Error.severity ∧
    w0.fileWriteFails = false ∧
    fileLoggerEx.logOp ⟨some fileLoggerEx, LevelFilter.Warn⟩ nowEx
      { errRecEx with level := .Info } w0 = w0 :=
  ⟨rfl, by decide, by decide, rfl,
    (C1_threshold_gate fileLoggerEx ⟨some fileLoggerEx, LevelFilter.Warn⟩ .Info .Warn .Error
      nowEx errRecEx w0 rfl (by decide) (by decide) rfl).1⟩

/-- C2: the file rendering is configuration-invariant and is exactly
`[YYYY-MM-DD HH:MM:SS LEVEL file:line] message\n`: full date and time,
`"unknown"`/`0` sentinels for absent source info, the plain uppercase
level label, no ANSI escape byte (for messages and file names free of
it), and a trailing newline. -/
theorem C2_file_format (f f2 : LogFormatter) (now : DateTime) (r : Record)
    (hmsg : hasEsc r.args = false) (hfile : hasEsc (r.file.getD "unknown") = false) :
    f.format_file now r = f2.format_file now r ∧
    f.format_file now r =
      "[" ++ fmtFull now ++ " " ++ r.level.as_str ++ " " ++ (r.file.getD "unknown") ++ ":"
        ++ natRepr (r.line.getD 0) ++ "] " ++ r.args ++ "\n" ∧
    hasEsc (f.format_file now r) = false ∧
    (f.format_file now r).data.getLast? = some '\n' := by
  refine ⟨rfl, rfl, ?_, ?_⟩
  · unfold LogFormatter.format_file
    simp only [hasEsc_append, hasEsc_fmtFull, hasEsc_as_str, hasEsc_natRepr, hmsg, hfile]
    decide
  · unfold LogFormatter.format_file
    rw [data_getLast?_append _ "\n" (by decide)]
    decide

/-- Witness for C2: the spec's scenario event at the fixed instant
renders to the exact audit line. -/
theorem C2_file_format_witness :
    hasEsc errRecEx.args = false ∧ hasEsc (errRecEx.file.getD "unknown") = false ∧
    (LogFormatter.new LoggerConfig.default).format_file nowEx errRecEx
      = (LogFormatter.new LoggerConfig.production).format_file nowEx errRecEx ∧
    (LogFormatter.new LoggerConfig.default).format_file nowEx errRecEx
      = "[2024-01-15 14:32:07 ERROR main:10] boom\n" :=
  ⟨by decide, by decide,
    (C2_file_format (LogFormatter.new LoggerConfig.default)
      (LogFormatter.new LoggerConfig.production) nowEx errRecEx (by decide) (by decide)).1,
    by decide⟩

/-- C3 (divergence evidence): `init` does set the global threshold to
`Trace`, and the default configuration's `level` field is `Info`; but a
`Trace`-level event — strictly below `Info` in severity — still produces
terminal output, because `Log::log` consults only `log::max_level()` and
never the configuration's `level` field.  This contradicts the doc
comment on `FStdoutLogger::init` ("actual filtering will happen
according to the `level` setting in the logger's configuration"). -/
theorem C3_default_init_gate_bug :
    (FStdoutLogger.with_config ⟨[], []⟩ none LoggerConfig.default).2 = .ok defaultLoggerEx ∧
    defaultLoggerEx.init ⟨none, .Off⟩ = (⟨some defaultLoggerEx, .Trace⟩, .ok ()) ∧
    LoggerConfig.default.level = LevelFilter.Info ∧
    Level.Trace.severity < Level.Info.severity ∧
    (defaultLoggerEx.logOp ⟨some defaultLoggerEx, .Trace⟩ nowEx
        { level := .Trace, args := "trace msg" } w0).stdout ≠ w0.stdout := by
  refine ⟨rfl, rfl, rfl, by decide, ?_⟩
  decide

theorem hasEsc_lit_lbr : hasEsc "[" = false := by decide

theorem hasEsc_lit_space : hasEsc " " = false := by decide

theorem hasEsc_lit_rbr : hasEsc "] " = false := by decide

theorem hasEsc_lit_colon : hasEsc ":" = false := by decide

/-- C4: the terminal rendering contains the ANSI escape byte exactly
when `use_colors` is set (for messages and file names free of it); with
colors on, the timestamp and — when shown — the `file:line` token are
wrapped in the bright-black (dim/gray) style while the level label keeps
its own per-level rendering, and the `Trace` label renders unstyled. -/
theorem C4_terminal_colors_iff (f : LogFormatter) (now : DateTime) (r : Record)
    (hmsg : hasEsc r.args = false) (hfile : hasEsc (r.file.getD "unknown") = false) :
    hasEsc (f.format_stdout now r) = f.config.use_colors ∧
    (f.config.use_colors = true →
      f.format_stdout now r =
        (if f.config.show_file_info then
          "[" ++ (if f.config.show_date_in_stdout then fmtFull now
              else fmtTime now).bright_black.render
            ++ " " ++ (f.get_level_color r.level).render ++ " "
            ++ ((r.file.getD "unknown") ++ ":" ++ natRepr (r.line.getD 0)).bright_black.render
            ++ "] " ++ r.args
         else
          "[" ++ (if f.config.show_date_in_stdout then fmtFull now
              else fmtTime now).bright_black.render
            ++ " " ++ (f.get_level_color r.level).render ++ "] " ++ r.args)) ∧
    (f.get_level_color Level.Trace).render = "TRACE" := by
  refine ⟨?_, ?_, ?_⟩
  · cases hc : f.config.use_colors
    · cases hsf : f.config.show_file_info <;> cases hsd : f.config.show_date_in_stdout <;>
        simp [LogFormatter.format_stdout, hc, hsf, hsd, hasEsc_append, hasEsc_fmtTime,
          hasEsc_fmtFull, get_level_color_plain f hc, hasEsc_as_str, hasEsc_natRepr,
          hmsg, hfile, hasEsc_lit_lbr, hasEsc_lit_space, hasEsc_lit_rbr, hasEsc_lit_colon]
    · cases hsf : f.config.show_file_info <;> cases hsd : f.config.show_date_in_stdout <;>
        simp [LogFormatter.format_stdout, hc, hsf, hsd, hasEsc_append, hasEsc_dim,
          hasEsc_lit_lbr, hasEsc_lit_space, hasEsc_lit_rbr]
  · intro hc
    cases hsf : f.config.show_file_info <;> cases hsd : f.config.show_date_in_stdout <;>
      simp [LogFormatter.format_stdout, hc, hsf, hsd]
  · unfold LogFormatter.get_level_color
    split
    · rfl
    · rfl

/-- Witness for C4: the same event renders with escape bytes under the
default (colored) configuration and without them when colors are off. -/
theorem C4_terminal_colors_iff_witness :
    hasEsc errRecEx.args = false ∧ hasEsc (errRecEx.file.getD "unknown") = false ∧
    hasEsc ((LogFormatter.new LoggerConfig.default).format_stdout nowEx errRecEx) = true ∧
    hasEsc ((LogFormatter.new
      { LoggerConfig.default with use_colors := false }).format_stdout nowEx errRecEx) = false :=
  ⟨by decide, by decide,
    (C4_terminal_colors_iff (LogFormatter.new LoggerConfig.default) nowEx errRecEx
      (by decide) (by decide)).1,
    (C4_terminal_colors_iff (LogFormatter.new { LoggerConfig.default with use_colors := false })
      nowEx errRecEx (by decide) (by decide)).1⟩

/-- C5: the terminal rendering has exactly the bracketed shape the spec
describes — `[<timestamp> <level> <file>:<line>] <message>` with
`show_file_info`, `[<timestamp> <level>] <message>` without, timestamp
`HH:MM:SS` unless `show_date_in_stdout`, sentinels `"unknown"`/`0` — and
appends no trailing newline of its own. -/
theorem C5_terminal_shape (f : LogFormatter) (now : DateTime) (r : Record)
    (h : r.args.data.getLast? ≠ some '\n') :
    f.format_stdout now r = renderForTerminalSpec f.config now r ∧
    (f.format_stdout now r).data.getLast? ≠ some '\n' := by
  constructor
  · cases hc : f.config.use_colors <;> cases hsf : f.config.show_file_info <;>
      cases hsd : f.config.show_date_in_stdout <;>
      simp [LogFormatter.format_stdout, renderForTerminalSpec, dimIf, LogFormatter.new,
        LogFormatter.get_level_color, hc, hsf, hsd, String.append_assoc]
  · have hA : ∃ A, f.format_stdout now r = (A ++ "] ") ++ r.args := by
      unfold LogFormatter.format_stdout
      dsimp only
      repeat' split
      all_goals exact ⟨_, rfl⟩
    obtain ⟨A, hA⟩ := hA
    rw [hA]
    exact getLast_shape_ne_nl A r.args h

/-- Witness for C5: the spec's scenario — Debug level, no file info, no
colors, an Info event "ready" — renders to `[14:32:07 INFO] ready`. -/
theorem C5_terminal_shape_witness :
    readyRec.args.data.getLast? ≠ some '\n' ∧
    (LogFormatter.new scenarioCfg).format_stdout nowEx readyRec
      = renderForTerminalSpec scenarioCfg nowEx readyRec ∧
    (LogFormatter.new scenarioCfg).format_stdout nowEx readyRec = "[14:32:07 INFO] ready" :=
  ⟨by decide,
    (C5_terminal_shape (LogFormatter.new scenarioCfg) nowEx readyRec (by decide)).1,
    by decide⟩

/-- C6: for an event that passes the gate, `log` is a total operation on
the world with no error channel: the terminal rendering is printed
whatever the file-write outcome, a failing file write leaves the file
untouched (the error is swallowed), and `flush` likewise never reports
anything. -/
theorem C6_log_swallows_errors (l : FStdoutLogger) (g : GlobalState) (now : DateTime)
    (r : Record) (w : IOState) (hen : l.enabled g.maxLevel r.level = true) :
    (l.logOp g now r w).stdout = w.stdout ++ (l.formatter.format_stdout now r ++ "\n") ∧
    (w.fileWriteFails = true → (l.logOp g now r w).file = w.file) ∧
    l.flushOp (l.logOp g now r w) = l.logOp g now r w := by
  refine ⟨?_, ?_, rfl⟩
  · simp only [FStdoutLogger.logOp, hen]
    simp
    split <;> first | (split <;> rfl) | rfl
  · intro hio
    simp only [FStdoutLogger.logOp, hen]
    simp [hio]

/-- Witness for C6: an enabled event against a file-backed logger whose
file writes are failing still reaches the terminal; the file stays as it
was. -/
theorem C6_log_swallows_errors_witness :
    fileLoggerEx.enabled (⟨some fileLoggerEx, LevelFilter.Trace⟩ : GlobalState).maxLevel
      errRecEx.level = true ∧
    (fileLoggerEx.logOp ⟨some fileLoggerEx, LevelFilter.Trace⟩ nowEx errRecEx wFail).stdout
      = wFail.stdout ++ (fileLoggerEx.formatter.format_stdout nowEx errRecEx ++ "\n") ∧
    (fileLoggerEx.logOp ⟨some fileLoggerEx, LevelFilter.Trace⟩ nowEx errRecEx wFail).file
      = wFail.file :=
  ⟨rfl,
    (C6_log_swallows_errors fileLoggerEx ⟨some fileLoggerEx, LevelFilter.Trace⟩ nowEx
      errRecEx wFail rfl).1,
    (C6_log_swallows_errors fileLoggerEx ⟨some fileLoggerEx, LevelFilter.Trace⟩ nowEx
      errRecEx wFail rfl).2.1 rfl⟩

/-- C7: registering while a handler is already installed fails with
`LogError::Logger`, leaves the global state — installed handler and max
level — exactly as it was, and subsequent events are handled by the
original handler unchanged. -/
theorem C7_duplicate_registration (l : FStdoutLogger) (g : GlobalState) (level : LevelFilter)
    (h : g.logger.isSome = true) :
    l.init g = (g, .error .Logger) ∧
    l.init_with_level level g = (g, .error .Logger) ∧
    (∀ now r w, ((l.init_with_level level g).1).handle now r w = g.handle now r w) ∧
    (∀ now r w, ((l.init g).1).handle now r w = g.handle now r w) := by
  have hs : set_logger g l = (g, false) := by
    unfold set_logger
    rw [if_pos h]
  refine ⟨?_, ?_, ?_, ?_⟩
  · unfold FStdoutLogger.init
    rw [hs]
  · unfold FStdoutLogger.init_with_level
    rw [hs]
  · intro now r w
    unfold FStdoutLogger.init_with_level
    rw [hs]
  · intro now r w
    unfold FStdoutLogger.init
    rw [hs]

/-- Witness for C7: a second registration against an active global state
is rejected with the duplicate-registration error. -/
theorem C7_duplicate_registration_witness :
    gActive.logger.isSome = true ∧
    defaultLoggerEx.init gActive = (gActive, .error .Logger) ∧
    defaultLoggerEx.init_with_level .Debug gActive = (gActive, .error .Logger) :=
  ⟨rfl, (C7_duplicate_registration defaultLoggerEx gActive .Debug rfl).1,
    (C7_duplicate_registration defaultLoggerEx gActive .Debug rfl).2.1⟩

/-- C8: construction fails exactly when a path is given and opening it
fails; with no path it always succeeds with an empty file slot, and a
logger without a file slot never touches the file on `log`. -/
theorem C8_construction_fallibility (fs : FS) (path : String) (cfg : LoggerConfig)
    (g : GlobalState) (now : DateTime) (r : Record) (w : IOState) :
    ((FStdoutLogger.with_config fs (some path) cfg).2 = .error .IoError ↔ path ∈ fs.failing) ∧
    FStdoutLogger.with_config fs none cfg
      = (fs, .ok { log_file := false, formatter := LogFormatter.new cfg }) ∧
    (∀ l : FStdoutLogger, l.log_file = false → (l.logOp g now r w).file = w.file) := by
  refine ⟨?_, rfl, ?_⟩
  · unfold FStdoutLogger.with_config
    dsimp only
    split
    · simp_all
    · simp_all
  · intro l hl
    unfold FStdoutLogger.logOp
    split
    · rfl
    · simp [hl]

/-- Witness for C8: opening the failing path is rejected with an I/O
error, and a stdout-only logger leaves the file contents alone. -/
theorem C8_construction_fallibility_witness :
    (FStdoutLogger.with_config fsEx (some "bad.log") LoggerConfig.default).2 = .error .IoError ∧
    (defaultLoggerEx.logOp gActive nowEx errRecEx w0).file = w0.file :=
  ⟨(C8_construction_fallibility fsEx "bad.log" LoggerConfig.default gActive nowEx errRecEx
      w0).1.mpr (by decide),
    (C8_construction_fallibility fsEx "bad.log" LoggerConfig.default gActive nowEx errRecEx
      w0).2.2 defaultLoggerEx rfl⟩

/-- C10: calling `init_logger_with_config` with a path while a handler
is already active returns the duplicate-registration error and leaves
the global state unchanged, yet the log file has already been
created/opened — the failed registration does not undo the file-open
side effect. -/
theorem C10_init_not_atomic (fs : FS) (g : GlobalState) (path : String) (cfg : LoggerConfig)
    (hact : g.logger.isSome = true) (hok : path ∉ fs.failing) :
    (init_logger_with_config fs g (some path) cfg).2.2 = .error .Logger ∧
    path ∈ (init_logger_with_config fs g (some path) cfg).1.files ∧
    (init_logger_with_config fs g (some path) cfg).2.1 = g := by
  have hs : ∀ l : FStdoutLogger, set_logger g l = (g, false) := fun l => by
    unfold set_logger
    rw [if_pos hact]
  unfold init_logger_with_config FStdoutLogger.with_config
  dsimp only
  rw [if_neg hok]
  simp only [FStdoutLogger.init_with_level, hs]
  refine ⟨trivial, ?_, trivial⟩
  split
  · assumption
  · exact List.mem_cons_self path _

/-- Witness for C10: with a handler already active, initializing with a
fresh path fails with the registration error, yet the path now exists on
the file system. -/
theorem C10_init_not_atomic_witness :
    gActive.logger.isSome = true ∧
    ("app.log" ∉ FS.failing ⟨[], []⟩) ∧
    (init_logger_with_config ⟨[], []⟩ gActive (some "app.log")
      LoggerConfig.default).2.2 = .error .Logger ∧
    "app.log" ∈ (init_logger_with_config ⟨[], []⟩ gActive (some "app.log")
      LoggerConfig.default).1.files :=
  ⟨rfl, by decide,
    (C10_init_not_atomic ⟨[], []⟩ gActive "app.log" LoggerConfig.default rfl (by decide)).1,
    (C10_init_not_atomic ⟨[], []⟩ gActive "app.log" LoggerConfig.default rfl (by decide)).2.1⟩

/-- C9: any interleaved execution of the locked-file system, started
with the file renderings of `N` threads × `M` events and run to
quiescence, leaves the file equal to a concatenation of some permutation
of those complete records — no torn writes — and containing exactly
`N × M` newline-terminated lines (for messages and file names free of
embedded newlines). -/
theorem C9_concurrent_file_integrity (f : LogFormatter)
    (threads : List (List (DateTime × Record))) (N M : Nat) (s : WState)
    (hN : threads.length = N) (hM : ∀ t ∈ threads, t.length = M)
    (hclean : ∀ e ∈ threads.flatten, hasCh '\n' e.2.args.data = false ∧
      hasCh '\n' (e.2.file.getD "unknown").data = false)
    (hrun : Relation.ReflTransGen WStep (WInit (threads.flatten.map (formatRecordBytes f))) s)
    (hterm : WTerminal s) :
    ∃ done : List (List Char),
      done.Perm (threads.flatten.map (formatRecordBytes f)) ∧
      s.file = done.flatten ∧
      countCh '\n' s.file = N * M := by
  obtain ⟨done, part, hfile, hrest⟩ := winv_reach hrun (winv_init _)
  obtain ⟨hl, hp⟩ := hterm
  rw [if_neg (by simp [hl])] at hrest
  obtain ⟨hpart, _, hperm⟩ := hrest
  subst hpart
  rw [List.append_nil] at hfile
  rw [hp, List.append_nil] at hperm
  refine ⟨done, hperm, hfile, ?_⟩
  rw [hfile, countCh_flatten]
  have h1 : (done.map (countCh '\n')).Perm
      ((threads.flatten.map (formatRecordBytes f)).map (countCh '\n')) := hperm.map _
  rw [h1.sum_eq, List.map_map]
  have h2 : (threads.flatten.map (countCh '\n' ∘ formatRecordBytes f)).sum
      = threads.flatten.length := by
    apply map_sum_const_one
    intro e he
    exact countNl_formatRecordBytes f e (hclean e he).1 (hclean e he).2
  rw [h2, length_flatten_const threads M hM, hN]

/-- Witness for C9: one thread, one record — acquire, write all bytes,
release; the quiescent file is exactly that record, with one line. -/
theorem C9_concurrent_file_integrity_witness :
    WTerminal { file := c9rec, locked := false, pending := [], cur := [] } ∧
    ∃ done : List (List Char),
      done.Perm ([[(nowEx, errRecEx)]].flatten.map
        (formatRecordBytes (LogFormatter.new LoggerConfig.default))) ∧
      ({ file := c9rec, locked := false, pending := [], cur := [] } : WState).file
        = done.flatten ∧
      countCh '\n' ({ file := c9rec, locked := false, pending := [], cur := [] } : WState).file
        = 1 * 1 := by
  constructor
  · exact ⟨rfl, rfl⟩
  · have h1 : WStep (WInit [c9rec]) { file := [], locked := true, pending := [], cur := c9rec } := by
      have h := WStep.acquire (WInit [c9rec]) c9rec rfl (by simp [WInit])
      simpa [WInit, listErase] using h
    have h2 : WStep { file := [], locked := true, pending := [], cur := c9rec }
        { file := c9rec, locked := true, pending := [], cur := [] } := by
      have h := WStep.write ⟨[], true, [], c9rec⟩ c9rec [] rfl (by simp)
      simpa using h
    have h3 : WStep { file := c9rec, locked := true, pending := [], cur := [] }
        { file := c9rec, locked := false, pending := [], cur := [] } :=
      WStep.release { file := c9rec, locked := true, pending := [], cur := [] } rfl rfl
    have hrun : Relation.ReflTransGen WStep (WInit [c9rec])
        { file := c9rec, locked := false, pending := [], cur := [] } :=
      Relation.ReflTransGen.head h1
        (Relation.ReflTransGen.head h2 (Relation.ReflTransGen.single h3))
    exact C9_concurrent_file_integrity (LogFormatter.new LoggerConfig.default)
      [[(nowEx, errRecEx)]] 1 1
      { file := c9rec, locked := false, pending := [], cur := [] }
      rfl (by decide) (by decide) hrun ⟨rfl, rfl⟩
